import Mathlib

/-!
Verification of the `retry` package (`src/retry.go`): a retry-with-backoff
execution wrapper.  Go errors are embedded as an inductive type `GoError`
(a nilable error is `Option GoError`); the caller-supplied `Backoff` is a
deterministic state machine `σ → Nat × Bool × σ` returning
`(duration, stop, newState)`; the context's cancellation signal is an
oracle `done : Nat → Bool` over checkpoint indices (iteration `i` of the
loop observes the signal at index `3*i` before the attempt, `3*i+1` in the
standalone pre-wait select, and `3*i+2` in the select that races the
timer).  The loop `DoWithData` is a fuel-indexed recursion; it returns the
value and error of the Go function together with the number of operation
invocations, the number of `b.Next()` calls, and the final backoff state,
so that frame properties about the backoff are statable.
-/

namespace Retry

/-- Embedding of Go error values reachable in this development: a plain
error constructed from a message, an error wrapping another one (as by
`fmt.Errorf` with `%w`), the package's `*retryableError` wrapper, and the
distinguished cancellation error. -/
inductive GoError where
  | base (msg : String)
  | wrap (msg : String) (cause : GoError)
  | retryable (cause : GoError)
  | canceled
deriving DecidableEq, Repr

/-- `RetryableError` from `retry.go`: marks an error as retryable,
returning `nil` on `nil`. -/
def RetryableError : Option GoError → Option GoError
  | none => none
  | some e => some (GoError.retryable e)

/-- `(*retryableError).Unwrap` from `retry.go`: returns the wrapped
error.  Only ever applied to `GoError.retryable` values. -/
def retryableErrorUnwrap : GoError → GoError
  | GoError.retryable c => c
  | e => e

/-- `errors.As(err, &rerr)` for target type `*retryableError`: walks the
`Unwrap` chain of `err` and returns the first `retryable` node found, if
any.  `base` and `canceled` have no `Unwrap` method, so the chain ends
there. -/
def errorsAsRetryable : GoError → Option GoError
  | GoError.base _ => none
  | GoError.canceled => none
  | GoError.wrap _ c => errorsAsRetryable c
  | GoError.retryable c => some (GoError.retryable c)

/-- A Go `context.Context` as seen by `DoWithData`: `done k` tells whether
the `k`-th observation of `ctx.Done()` during the run finds the context
cancelled, and `cerr` is the non-nil error `ctx.Err()` returns once
cancelled. -/
structure Ctx where
  done : Nat → Bool
  cerr : GoError

/-- A `Backoff` policy: `next` embeds the `Next()` method, returning the
wait duration, the stop flag, and the mutated policy state. -/
structure Backoff (σ : Type) where
  next : σ → Nat × Bool × σ

/-- The observable outcome of a terminating run of `DoWithData`: the
returned value and error, instrumented with the number of invocations of
the operation (`calls`), the number of `Next()` calls on the backoff
(`nextCalls`), and the final backoff state (`bState`). -/
structure ExecResult (T : Type) (σ : Type) where
  val : T
  err : Option GoError
  calls : Nat
  nextCalls : Nat
  bState : σ
deriving DecidableEq, Repr

/-- The loop body of `DoWithData` from `retry.go`, fuel-indexed (the Go
loop need not terminate).  `i` is the 0-based iteration counter; at entry
of iteration `i`, exactly `i` operation invocations and `i` `Next()` calls
have happened.  Checkpoint indices follow the scheme documented on
`Ctx`. -/
def doWithDataAux {T σ : Type} (ctx : Ctx) (next : σ → Nat × Bool × σ)
    (f : Nat → T × Option GoError) (emptyT : T) :
    Nat → Nat → σ → Option (ExecResult T σ)
  | 0, _, _ => none
  | fuel + 1, i, s =>
    -- select { case <-ctx.Done(): return emptyT, ctx.Err() ... }
    if ctx.done (3 * i) then
      some ⟨emptyT, some ctx.cerr, i, i, s⟩
    else
      -- val, err := f(ctx); if err == nil { return val, nil }
      match (f i).2 with
      | none => some ⟨(f i).1, none, i + 1, i, s⟩
      | some e =>
        match errorsAsRetryable e with
        | none =>
          -- not retryable: return emptyT, err
          some ⟨emptyT, some e, i + 1, i, s⟩
        | some rerr =>
          -- next, stop := b.Next(); if stop { return emptyT, rerr.Unwrap() }
          if (next s).2.1 then
            some ⟨emptyT, some (retryableErrorUnwrap rerr), i + 1, i + 1, (next s).2.2⟩
          -- ctx.Done() has priority, so we test it alone first
          else if ctx.done (3 * i + 1) then
            some ⟨emptyT, some ctx.cerr, i + 1, i + 1, (next s).2.2⟩
          -- race the timer against ctx.Done()
          else if ctx.done (3 * i + 2) then
            some ⟨emptyT, some ctx.cerr, i + 1, i + 1, (next s).2.2⟩
          else
            doWithDataAux ctx next f emptyT fuel (i + 1) (next s).2.2

/-- `DoWithData` from `retry.go`: run the retry loop from the backoff's
initial state `s0`, with `emptyT` the zero value of `T` (Go's
`var emptyT T`).  `fuel` bounds the number of iterations modelled; `none`
means the loop was still running after `fuel` iterations. -/
def DoWithData {T σ : Type} (ctx : Ctx) (b : Backoff σ) (s0 : σ)
    (f : Nat → T × Option GoError) (emptyT : T) (fuel : Nat) :
    Option (ExecResult T σ) :=
  doWithDataAux ctx b.next f emptyT fuel 0 s0

/-- The claim's notion of chain-based retryability: some error in the
`Unwrap` chain is a `retryable` wrapper, at any depth. -/
def chainHasRetryable : GoError → Bool
  | GoError.wrap _ c => chainHasRetryable c
  | GoError.retryable _ => true
  | _ => false

/-! Concrete inputs used to instantiate the theorems below. -/

/-- A context that is never cancelled. -/
def ctxLive : Ctx := ⟨fun _ => false, GoError.canceled⟩

/-- A context that is cancelled from the very first observation. -/
def ctxDead : Ctx := ⟨fun _ => true, GoError.canceled⟩

/-- A context whose cancellation is first observed at checkpoint 1. -/
def ctxFrom1 : Ctx := ⟨fun k => decide (1 ≤ k), GoError.canceled⟩

/-- A context whose cancellation is first observed at checkpoint 2. -/
def ctxFrom2 : Ctx := ⟨fun k => decide (2 ≤ k), GoError.canceled⟩

/-- A backoff over a `Nat` attempt counter that allows two retries and
stops on the third consultation. -/
def bStopAt2 : Backoff Nat := ⟨fun s => (0, decide (2 ≤ s), s + 1)⟩

/-- A backoff over a `Nat` attempt counter that never stops. -/
def bNever : Backoff Nat := ⟨fun s => (0, false, s + 1)⟩

/-- An operation that always fails with a retryable-wrapped error. -/
def fRetryBoom : Nat → Nat × Option GoError :=
  fun _ => (0, some (GoError.retryable (GoError.base "boom")))

/-- A non-retryable error: a wrap chain with no retryable marker. -/
def ePlainWrap : GoError := GoError.wrap "w" (GoError.base "x")

/-- An operation that always fails with `ePlainWrap`. -/
def fPlainWrap : Nat → Nat × Option GoError := fun _ => (0, some ePlainWrap)

/-- An operation failing retryably on attempts 1 and 2, then returning 42. -/
def fRetryTwice : Nat → Nat × Option GoError :=
  fun k => if k < 2 then (0, some (GoError.retryable (GoError.base "t"))) else (42, none)

/-- An operation that always succeeds with 7. -/
def fConst7 : Nat → Nat × Option GoError := fun _ => (7, none)

/-- An operation that always succeeds with 9. -/
def fConst9 : Nat → Nat × Option GoError := fun _ => (9, none)

/-- An error whose retryable marker sits below an outer wrap layer. -/
def eDeepMarker : GoError := GoError.wrap "outer" (GoError.retryable (GoError.base "x"))

/-- An operation that always fails with `eDeepMarker`. -/
def fDeepMarker : Nat → Nat × Option GoError := fun _ => (0, some eDeepMarker)

/-- C6: `RetryableError` applied to `nil` returns `nil`. -/
theorem retryableError_nil : RetryableError none = none := rfl

/-- C7: for every non-nil error `e`, unwrapping the wrapper produced by
`RetryableError` yields exactly `e`. -/
theorem retryableError_unwrap_roundtrip (e : GoError) :
    Option.map retryableErrorUnwrap (RetryableError (some e)) = some e := rfl

/-- Advancing the loop: if during the first `i` iterations no cancellation
is observed, every attempt fails with a retryable-wrapped error, and the
backoff never stops while following the state trajectory `states`, then
running the loop from iteration `0` is the same as running it from
iteration `i`, with `i` units of fuel consumed. -/
theorem doWithDataAux_advance {T σ : Type} (ctx : Ctx) (next : σ → Nat × Bool × σ)
    (f : Nat → T × Option GoError) (emptyT : T) (states : Nat → σ)
    (cause : Nat → GoError) (i : Nat)
    (hctx : ∀ k, k < 3 * i → ctx.done k = false)
    (hf : ∀ k, k < i → (f k).2 = some (GoError.retryable (cause k)))
    (hstop : ∀ k, k < i → (next (states k)).2.1 = false)
    (hstate : ∀ k, k < i → (next (states k)).2.2 = states (k + 1)) :
    ∀ fuel : Nat,
      doWithDataAux ctx next f emptyT (fuel + i) 0 (states 0)
        = doWithDataAux ctx next f emptyT fuel i (states i) := by
  induction i with
  | zero => intro fuel; rfl
  | succ j ih =>
    intro fuel
    have hj : ∀ k, k < j → (f k).2 = some (GoError.retryable (cause k)) :=
      fun k hk => hf k (by omega)
    have h1 : doWithDataAux ctx next f emptyT ((fuel + 1) + j) 0 (states 0)
        = doWithDataAux ctx next f emptyT (fuel + 1) j (states j) :=
      ih (fun k hk => hctx k (by omega)) hj
        (fun k hk => hstop k (by omega)) (fun k hk => hstate k (by omega)) (fuel + 1)
    have h2 : doWithDataAux ctx next f emptyT (fuel + 1) j (states j)
        = doWithDataAux ctx next f emptyT fuel (j + 1) (states (j + 1)) := by
      have hc0 : ctx.done (3 * j) = false := hctx _ (by omega)
      have hc1 : ctx.done (3 * j + 1) = false := hctx _ (by omega)
      have hc2 : ctx.done (3 * j + 2) = false := hctx _ (by omega)
      simp [doWithDataAux, hc0, hc1, hc2, hf j (by omega), hstop j (by omega),
        hstate j (by omega), errorsAsRetryable]
    have hfe : fuel + (j + 1) = (fuel + 1) + j := by omega
    rw [hfe, h1, h2]

/-- C2: an operation whose error has no retryable marker anywhere in its
chain is invoked exactly once; the error is returned unchanged with the
zero value, and the backoff policy is not consulted. -/
theorem doWithData_nonretryable {T σ : Type} (ctx : Ctx) (b : Backoff σ) (s0 : σ)
    (f : Nat → T × Option GoError) (emptyT : T) (e : GoError) (fuel : Nat)
    (hctx : ctx.done 0 = false)
    (hf : (f 0).2 = some e)
    (he : errorsAsRetryable e = none)
    (hfuel : 1 ≤ fuel) :
    DoWithData ctx b s0 f emptyT fuel = some ⟨emptyT, some e, 1, 0, s0⟩ := by
  obtain ⟨fl, rfl⟩ : ∃ fl, fuel = fl + 1 := ⟨fuel - 1, by omega⟩
  simp [DoWithData, doWithDataAux, hctx, hf, he]

/-- C4: if the context is already cancelled before any attempt,
`DoWithData` returns the cancellation error with the zero value and never
invokes the operation; moreover, the cancellation check is performed
before every attempt, not only the first. -/
theorem doWithData_canceled_pre_attempt {T σ : Type} (ctx : Ctx) (b : Backoff σ)
    (s0 : σ) (f : Nat → T × Option GoError) (emptyT : T) (fuel : Nat)
    (hfuel : 1 ≤ fuel) :
    (ctx.done 0 = true →
      DoWithData ctx b s0 f emptyT fuel = some ⟨emptyT, some ctx.cerr, 0, 0, s0⟩)
    ∧ ∀ (i : Nat) (s : σ), ctx.done (3 * i) = true →
        doWithDataAux ctx b.next f emptyT fuel i s
          = some ⟨emptyT, some ctx.cerr, i, i, s⟩ := by
  obtain ⟨fl, rfl⟩ : ∃ fl, fuel = fl + 1 := ⟨fuel - 1, by omega⟩
  constructor
  · intro h0
    simp [DoWithData, doWithDataAux, h0]
  · intro i s hi
    simp [doWithDataAux, hi]

/-- C8: an operation that succeeds on its first invocation yields its
value with no error; the backoff policy is never consulted and its state
is left unchanged. -/
theorem doWithData_first_success_frame {T σ : Type} (ctx : Ctx) (b : Backoff σ)
    (s0 : σ) (f : Nat → T × Option GoError) (emptyT : T) (v : T) (fuel : Nat)
    (hctx : ∀ k, ctx.done k = false)
    (hf : f 0 = (v, none))
    (hfuel : 1 ≤ fuel) :
    DoWithData ctx b s0 f emptyT fuel = some ⟨v, none, 1, 0, s0⟩ := by
  obtain ⟨fl, rfl⟩ : ∃ fl, fuel = fl + 1 := ⟨fuel - 1, by omega⟩
  simp [DoWithData, doWithDataAux, hctx, hf]

/-- C10: if the pre-attempt check passes and the invocation at iteration
`i` returns a nil error, the loop returns that attempt's value as a
success even when the cancellation signal has triggered during the
attempt (it is visible at the very next observation point): cancellation
is never observed after a successful attempt completes. -/
theorem doWithData_success_ignores_late_cancel {T σ : Type} (ctx : Ctx)
    (b : Backoff σ) (f : Nat → T × Option GoError) (emptyT : T) (v : T)
    (i fuel : Nat) (s : σ)
    (hctx : ctx.done (3 * i) = false)
    (htrig : ctx.done (3 * i + 1) = true)
    (hf : f i = (v, none))
    (hfuel : 1 ≤ fuel) :
    doWithDataAux ctx b.next f emptyT fuel i s = some ⟨v, none, i + 1, i, s⟩ := by
  obtain ⟨fl, rfl⟩ : ∃ fl, fuel = fl + 1 := ⟨fuel - 1, by omega⟩
  simp [doWithDataAux, hctx, hf]

theorem chainHasRetryable_iff_as (e : GoError) :
    chainHasRetryable e = true ↔ ∃ r, errorsAsRetryable e = some r := by
  induction e with
  | base m => simp [chainHasRetryable, errorsAsRetryable]
  | canceled => simp [chainHasRetryable, errorsAsRetryable]
  | wrap m c ih => simpa [chainHasRetryable, errorsAsRetryable] using ih
  | retryable c _ => simp [chainHasRetryable, errorsAsRetryable]

/-- At entry of iteration `i` exactly `i` backoff consultations have
happened, so any terminating run started at iteration `i` reports at
least `i` of them. -/
theorem doWithDataAux_nextCalls_lower {T σ : Type} (ctx : Ctx)
    (next : σ → Nat × Bool × σ) (f : Nat → T × Option GoError) (emptyT : T) :
    ∀ (fuel i : Nat) (s : σ) (r : ExecResult T σ),
      doWithDataAux ctx next f emptyT fuel i s = some r → i ≤ r.nextCalls := by
  intro fuel
  induction fuel with
  | zero => intro i s r h; simp [doWithDataAux] at h
  | succ fl ih =>
    intro i s r h
    rw [doWithDataAux] at h
    split at h
    · cases h; exact Nat.le_refl i
    · split at h
      · cases h; exact Nat.le_refl i
      · split at h
        · cases h; exact Nat.le_refl i
        · split at h
          · cases h; exact Nat.le_succ i
          · split at h
            · cases h; exact Nat.le_succ i
            · split at h
              · cases h; exact Nat.le_succ i
              · exact Nat.le_of_succ_le (ih (i + 1) _ r h)

/-- C1: an operation that fails with a retryable-wrapped error on every
invocation, against a policy that answers `stop = false` exactly `N`
times along the trajectory `states` and then `stop = true`, is invoked
exactly `N + 1` times, and the final error is the unwrapped underlying
cause, not the retryable wrapper. -/
theorem doWithData_exhausts_policy {T σ : Type} (ctx : Ctx) (b : Backoff σ)
    (f : Nat → T × Option GoError) (emptyT : T) (states : Nat → σ)
    (cause : Nat → GoError) (N fuel : Nat)
    (hctx : ∀ k, ctx.done k = false)
    (hf : ∀ k, (f k).2 = some (GoError.retryable (cause k)))
    (hstop : ∀ k, k < N → (b.next (states k)).2.1 = false)
    (hstate : ∀ k, k < N → (b.next (states k)).2.2 = states (k + 1))
    (hN : (b.next (states N)).2.1 = true)
    (hfuel : N + 1 ≤ fuel) :
    DoWithData ctx b (states 0) f emptyT fuel
      = some ⟨emptyT, some (cause N), N + 1, N + 1, (b.next (states N)).2.2⟩ := by
  obtain ⟨fl, rfl⟩ : ∃ fl, fuel = (fl + 1) + N := ⟨fuel - N - 1, by omega⟩
  unfold DoWithData
  rw [doWithDataAux_advance ctx b.next f emptyT states cause N
    (fun k _ => hctx k) (fun k hk => hf k) hstop hstate (fl + 1)]
  simp [doWithDataAux, hctx, hf N, hN, errorsAsRetryable, retryableErrorUnwrap]

/-- C3: an operation that fails with a retryable-wrapped error on its
first `K` invocations and succeeds on invocation `K + 1`, with the policy
still allowing retries at each of the first `K` consultations, is
invoked exactly `K + 1` times and the success value is returned with no
error. -/
theorem doWithData_success_after_retries {T σ : Type} (ctx : Ctx) (b : Backoff σ)
    (f : Nat → T × Option GoError) (emptyT : T) (states : Nat → σ)
    (cause : Nat → GoError) (K fuel : Nat)
    (hctx : ∀ k, ctx.done k = false)
    (hf : ∀ k, k < K → (f k).2 = some (GoError.retryable (cause k)))
    (hK : (f K).2 = none)
    (hstop : ∀ k, k < K → (b.next (states k)).2.1 = false)
    (hstate : ∀ k, k < K → (b.next (states k)).2.2 = states (k + 1))
    (hfuel : K + 1 ≤ fuel) :
    DoWithData ctx b (states 0) f emptyT fuel
      = some ⟨(f K).1, none, K + 1, K, states K⟩ := by
  obtain ⟨fl, rfl⟩ : ∃ fl, fuel = (fl + 1) + K := ⟨fuel - K - 1, by omega⟩
  unfold DoWithData
  rw [doWithDataAux_advance ctx b.next f emptyT states cause K
    (fun k _ => hctx k) hf hstop hstate (fl + 1)]
  simp [doWithDataAux, hctx, hK]

/-- C5: if the cancellation signal triggers during the backoff wait that
follows attempt `i + 1` (checkpoint `3 * i + 2`), the run returns the
cancellation error and attempt `i + 2` never starts (`calls = i + 1`);
moreover the signal is re-checked once, with priority, before any wait
begins: whenever that standalone pre-wait check observes cancellation the
loop returns the cancellation error without waiting. -/
theorem doWithData_canceled_during_wait {T σ : Type} (ctx : Ctx) (b : Backoff σ)
    (f : Nat → T × Option GoError) (emptyT : T) (states : Nat → σ)
    (cause : Nat → GoError) (i fuel : Nat)
    (hctx : ∀ k, k < 3 * i + 2 → ctx.done k = false)
    (hwait : ctx.done (3 * i + 2) = true)
    (hf : ∀ k, k ≤ i → (f k).2 = some (GoError.retryable (cause k)))
    (hstop : ∀ k, k ≤ i → (b.next (states k)).2.1 = false)
    (hstate : ∀ k, k ≤ i → (b.next (states k)).2.2 = states (k + 1))
    (hfuel : i + 1 ≤ fuel) :
    DoWithData ctx b (states 0) f emptyT fuel
      = some ⟨emptyT, some ctx.cerr, i + 1, i + 1, states (i + 1)⟩
    ∧ ∀ (ctx2 : Ctx) (j fl : Nat) (s : σ) (c : GoError),
        ctx2.done (3 * j) = false → ctx2.done (3 * j + 1) = true →
        (f j).2 = some (GoError.retryable c) → (b.next s).2.1 = false →
        doWithDataAux ctx2 b.next f emptyT (fl + 1) j s
          = some ⟨emptyT, some ctx2.cerr, j + 1, j + 1, (b.next s).2.2⟩ := by
  constructor
  · obtain ⟨fl, rfl⟩ : ∃ fl, fuel = (fl + 1) + i := ⟨fuel - i - 1, by omega⟩
    unfold DoWithData
    rw [doWithDataAux_advance ctx b.next f emptyT states cause i
      (fun k hk => hctx k (by omega)) (fun k hk => hf k (by omega))
      (fun k hk => hstop k (by omega)) (fun k hk => hstate k (by omega)) (fl + 1)]
    have hc0 : ctx.done (3 * i) = false := hctx _ (by omega)
    have hc1 : ctx.done (3 * i + 1) = false := hctx _ (by omega)
    simp [doWithDataAux, hc0, hc1, hwait, hf i (Nat.le_refl i),
      hstop i (Nat.le_refl i), hstate i (Nat.le_refl i), errorsAsRetryable]
  · intro ctx2 j fl s c h0 h1 hfj hbs
    simp [doWithDataAux, h0, h1, hfj, hbs, errorsAsRetryable]

/-- C9: classification is chain-based: when the operation's error carries
a retryable marker anywhere in its wrapping chain — not only outermost —
the loop classifies it as retryable and consults the backoff policy
(every terminating run reports at least one consultation) instead of
returning the error immediately as non-retryable. -/
theorem doWithData_chain_retryable_consults {T σ : Type} (ctx : Ctx)
    (b : Backoff σ) (s0 : σ) (f : Nat → T × Option GoError) (emptyT : T)
    (e : GoError) (fuel : Nat) (r : ExecResult T σ)
    (hctx : ctx.done 0 = false)
    (hf : (f 0).2 = some e)
    (he : chainHasRetryable e = true)
    (hr : DoWithData ctx b s0 f emptyT fuel = some r) :
    1 ≤ r.nextCalls := by
  obtain ⟨rerr, hrerr⟩ := (chainHasRetryable_iff_as e).1 he
  match fuel with
  | 0 => simp [DoWithData, doWithDataAux] at hr
  | fl + 1 =>
    simp only [DoWithData] at hr
    rw [doWithDataAux] at hr
    simp only [Nat.mul_zero, Nat.zero_add, hctx, Bool.false_eq_true, if_false,
      hf, hrerr] at hr
    split at hr
    · cases hr; exact Nat.le_refl 1
    · split at hr
      · cases hr; exact Nat.le_refl 1
      · split at hr
        · cases hr; exact Nat.le_refl 1
        · exact doWithDataAux_nextCalls_lower ctx b.next f emptyT fl 1 _ r hr

/-- Witness for C1: with a policy allowing two retries and an operation
that always fails retryably, the operation runs 3 times and the unwrapped
cause is returned. -/
theorem doWithData_exhausts_policy_witness :
    DoWithData ctxLive bStopAt2 0 fRetryBoom 0 5
      = some ⟨0, some (GoError.base "boom"), 3, 3, 3⟩ :=
  doWithData_exhausts_policy ctxLive bStopAt2 fRetryBoom 0 (fun k => k)
    (fun _ => GoError.base "boom") 2 5 (fun _ => rfl) (fun _ => rfl)
    (fun k hk => by simp [bStopAt2]; omega) (fun _ _ => rfl) rfl (by omega)

/-- Witness for C2: a plain wrapped error ends the run after one
invocation, unchanged, with the backoff untouched. -/
theorem doWithData_nonretryable_witness :
    DoWithData ctxLive bStopAt2 0 fPlainWrap 0 1
      = some ⟨0, some ePlainWrap, 1, 0, 0⟩ :=
  doWithData_nonretryable ctxLive bStopAt2 0 fPlainWrap 0 ePlainWrap 1
    rfl rfl rfl (Nat.le_refl 1)

/-- Witness for C3: two retryable failures then success yields 42 after
exactly three invocations. -/
theorem doWithData_success_after_retries_witness :
    DoWithData ctxLive bStopAt2 0 fRetryTwice 0 5
      = some ⟨42, none, 3, 2, 2⟩ :=
  doWithData_success_after_retries ctxLive bStopAt2 fRetryTwice 0 (fun k => k)
    (fun _ => GoError.base "t") 2 5 (fun _ => rfl)
    (fun k hk => by simp [fRetryTwice, hk]) rfl
    (fun k hk => by simp [bStopAt2]; omega) (fun _ _ => rfl) (by omega)

/-- Witness for C4: an already-cancelled context returns the cancellation
error with zero invocations, and the pre-attempt check also fires at a
later iteration. -/
theorem doWithData_canceled_pre_attempt_witness :
    DoWithData ctxDead bStopAt2 0 fRetryBoom 0 1
      = some ⟨0, some GoError.canceled, 0, 0, 0⟩
    ∧ doWithDataAux ctxDead bStopAt2.next fRetryBoom 0 1 2 7
      = some ⟨0, some GoError.canceled, 2, 2, 7⟩ :=
  ⟨(doWithData_canceled_pre_attempt ctxDead bStopAt2 0 fRetryBoom 0 1
      (Nat.le_refl 1)).1 rfl,
   (doWithData_canceled_pre_attempt ctxDead bStopAt2 0 fRetryBoom 0 1
      (Nat.le_refl 1)).2 2 7 rfl⟩

/-- Witness for C5: cancellation first observed inside the first backoff
wait ends the run with one invocation; and a context cancelled at the
standalone pre-wait check also ends the run without waiting. -/
theorem doWithData_canceled_during_wait_witness :
    DoWithData ctxFrom2 bNever 0 fRetryBoom 0 1
      = some ⟨0, some GoError.canceled, 1, 1, 1⟩
    ∧ doWithDataAux ctxFrom1 bNever.next fRetryBoom 0 1 0 0
      = some ⟨0, some GoError.canceled, 1, 1, 1⟩ :=
  ⟨(doWithData_canceled_during_wait ctxFrom2 bNever fRetryBoom 0 (fun k => k)
      (fun _ => GoError.base "boom") 0 1 (fun k hk => by simp [ctxFrom2]; omega)
      rfl (fun _ _ => rfl) (fun _ _ => rfl) (fun _ _ => rfl) (Nat.le_refl 1)).1,
   (doWithData_canceled_during_wait ctxFrom2 bNever fRetryBoom 0 (fun k => k)
      (fun _ => GoError.base "boom") 0 1 (fun k hk => by simp [ctxFrom2]; omega)
      rfl (fun _ _ => rfl) (fun _ _ => rfl) (fun _ _ => rfl) (Nat.le_refl 1)).2
     ctxFrom1 0 0 0 (GoError.base "boom") rfl rfl rfl rfl⟩

/-- Witness for C8: immediate success returns 7 with the backoff never
consulted and its state intact. -/
theorem doWithData_first_success_frame_witness :
    DoWithData ctxLive bStopAt2 0 fConst7 0 1 = some ⟨7, none, 1, 0, 0⟩ :=
  doWithData_first_success_frame ctxLive bStopAt2 0 fConst7 0 7 1
    (fun _ => rfl) rfl (Nat.le_refl 1)

/-- Witness for C9: a marker below an outer wrap layer still leads to a
backoff consultation (here the policy stops at once and the inner cause
is surfaced). -/
theorem doWithData_chain_retryable_consults_witness :
    1 ≤ (ExecResult.nextCalls
      (⟨0, some (GoError.base "x"), 1, 1, 6⟩ : ExecResult Nat Nat)) :=
  doWithData_chain_retryable_consults ctxLive bStopAt2 5 fDeepMarker 0
    eDeepMarker 3 ⟨0, some (GoError.base "x"), 1, 1, 6⟩ rfl rfl rfl rfl

/-- Witness for C10: with cancellation triggering right after the
pre-attempt check, a successful attempt still returns its value. -/
theorem doWithData_success_ignores_late_cancel_witness :
    doWithDataAux ctxFrom1 bStopAt2.next fConst9 0 1 0 0
      = some ⟨9, none, 1, 0, 0⟩ :=
  doWithData_success_ignores_late_cancel ctxFrom1 bStopAt2 fConst9 0 9 0 1 0
    rfl rfl rfl (Nat.le_refl 1)

end Retry
